import Mathlib

/-!
Verification of the TripIt-MCP server core against its design document.

The development shallowly embeds the repository's core components:
  * the error taxonomy of `src/lib/errors.ts`;
  * the retry/backoff loop of `TripItClient.request` in `src/tripit/client.ts`;
  * the tool-error boundary `handleTripItError` and the tool-call wrapper;
  * the JSON-RPC dispatcher `handleMCPRequest` of `src/mcp/server.ts`;
  * the `createObject` payload construction of `src/tripit/client.ts`;
  * a spec-modelled OAuth 1.0a signer (the signing internals live in the
    third-party `oauth-1.0a` dependency, outside the repository).
-/

namespace TripItMCP

/-! ## Error taxonomy (`src/lib/errors.ts`) -/

/-- Embeds the `TripItError` class: a status code and a human-readable detail
string.  The subclasses (`AuthenticationError`, `NotFoundError`,
`ProRequiredError`) only fix the status code and the detail text, so they are
embedded as constructor functions below. -/
structure TripItError where
  statusCode : Int
  details : String
deriving Repr, DecidableEq

/-- The `Error.message` computed by the `TripItError` constructor:
`TripIt API error (${statusCode}): ${details}`. -/
def TripItError.message (e : TripItError) : String :=
  "TripIt API error (" ++ toString e.statusCode ++ "): " ++ e.details

/-- `new AuthenticationError()` with its default detail text. -/
def authenticationError : TripItError :=
  ⟨401, "Authentication failed"⟩

/-- `new NotFoundError(resource, id)`: status 404, details
`${resource} with ID ${id} not found`. -/
def notFoundError (resource id : String) : TripItError :=
  ⟨404, resource ++ " with ID " ++ id ++ " not found"⟩

/-! ## Resilient client retry loop (`TripItClient.request`, `src/tripit/client.ts`) -/

/-- The outcome of one `fetch` of an attempt: either an HTTP response with a
status and a raw body (the body stands for what `response.text()` /
`response.json()` would yield), or a transport-level failure with no response
(`fetch` rejecting), carrying the stringified thrown value. -/
inductive FetchOutcome where
  | response (status : Int) (body : String)
  | transportFailure (msg : String)
deriving Repr, DecidableEq

/-- `Response.ok` of the Fetch API: status in the inclusive range 200–299. -/
def responseOk (status : Int) : Bool :=
  200 ≤ status && status < 300

/-- How one attempt of `TripItClient.request` can end: success with a parsed
payload, a terminal (rethrown) error, or a retryable (recorded) error. -/
inductive AttemptOutcome where
  | success (payload : String)
  | terminal (e : TripItError)
  | retryable (e : TripItError)
deriving Repr, DecidableEq

/-- How one attempt of `TripItClient.request` ends, after the status checks in
the `try` block and the `catch` block have run:

  * `success payload` — the response was OK and its parsed body is returned;
  * `terminal e` — an error was thrown and rethrown past the loop
    (`AuthenticationError` on 401, `NotFoundError` on 404);
  * `retryable e` — `lastError` is set to `e`, a backoff wait of
    `BASE_DELAY_MS * 2 ^ attempt` happens, and the loop continues.

Note the `!response.ok` branch: the code throws `TripItError(status, text)`
inside the `try`, and the `catch` rethrows only `AuthenticationError` and
`NotFoundError`; a plain `TripItError` is recorded as `lastError` and retried
with backoff.  So a non-success status other than 401/404/429/5xx (for example
400 or 403) is a `retryable` outcome in the code as written. -/
def classifyAttempt (path : String) : FetchOutcome → AttemptOutcome
  | .response status body =>
    if status == 401 then .terminal authenticationError
    else if status == 404 then .terminal (notFoundError "resource" path)
    else if status == 429 || status ≥ 500 then
      .retryable ⟨status, "Server error: " ++ toString status⟩
    else if !(responseOk status) then .retryable ⟨status, body⟩
    else .success body
  | .transportFailure msg => .retryable ⟨0, msg⟩

/-- `MAX_RETRIES` from `src/tripit/client.ts`. -/
def MAX_RETRIES : Nat := 3

/-- `BASE_DELAY_MS` from `src/tripit/client.ts`. -/
def BASE_DELAY_MS : Nat := 1000

/-- Observable outcome of one logical call: the final result (parsed payload
or thrown `TripItError`), the list of backoff waits in milliseconds in the
order they were performed (throttle waits are not backoff waits and are not
recorded here), and the number of attempts made. -/
structure CallOutcome where
  result : Except TripItError String
  waits : List Nat
  attempts : Nat
deriving Repr

/-- The retry loop of `TripItClient.request`, indexed by remaining fuel
(`MAX_RETRIES - attempt`), the current 0-based attempt index, and the
`lastError` accumulator.  When fuel runs out the loop exits and the code runs
`throw lastError ?? new TripItError(0, 'Request failed after retries')`.
A `retryable` classification performs its backoff wait before the loop
continues — including when it happens on the final attempt. -/
def requestGo (env : Nat → FetchOutcome) (path : String) :
    Nat → Nat → Option TripItError → CallOutcome
  | 0, _, lastError =>
    { result := .error (lastError.getD ⟨0, "Request failed after retries"⟩),
      waits := [], attempts := 0 }
  | fuel + 1, attempt, _ =>
    match classifyAttempt path (env attempt) with
    | .success payload => { result := .ok payload, waits := [], attempts := 1 }
    | .terminal e => { result := .error e, waits := [], attempts := 1 }
    | .retryable e =>
      let rest := requestGo env path fuel (attempt + 1) (some e)
      { result := rest.result,
        waits := BASE_DELAY_MS * 2 ^ attempt :: rest.waits,
        attempts := rest.attempts + 1 }

/-- One logical call of `TripItClient.request`: the environment `env` gives the
fetch outcome of each attempt index. -/
def request (env : Nat → FetchOutcome) (path : String) : CallOutcome :=
  requestGo env path MAX_RETRIES 0 none

/-- Whether an attempt outcome is a retryable classification. -/
def isRetryableOutcome : AttemptOutcome → Bool
  | .retryable _ => true
  | _ => false

/-- Structural invariant of the retry loop: at most `fuel` attempts are made,
the backoff waits are exactly `BASE_DELAY_MS * 2 ^ (a + i)` for the `i`-th
retryable classification, and there is one wait per retryable classification
among the attempts made (a wait follows every retryable classification,
including one on the final attempt). -/
theorem requestGo_spec (env : Nat → FetchOutcome) (path : String) :
    ∀ (fuel a : Nat) (last : Option TripItError),
      (requestGo env path fuel a last).attempts ≤ fuel ∧
      (requestGo env path fuel a last).waits =
        (List.range (requestGo env path fuel a last).waits.length).map
          (fun i => BASE_DELAY_MS * 2 ^ (a + i)) ∧
      (requestGo env path fuel a last).waits.length =
        (List.range (requestGo env path fuel a last).attempts).countP
          (fun i => isRetryableOutcome (classifyAttempt path (env (a + i)))) := by
  have hrange1 : List.range 1 = [0] := rfl
  intro fuel
  induction fuel with
  | zero => intro a last; simp [requestGo]
  | succ n ih =>
    intro a last
    unfold requestGo
    cases hc : classifyAttempt path (env a) with
    | success p =>
      simp [hc, hrange1, List.countP_cons, isRetryableOutcome]
    | terminal e =>
      simp [hc, hrange1, List.countP_cons, isRetryableOutcome]
    | retryable e =>
      obtain ⟨iha, ihw, ihc⟩ := ih (a + 1) (some e)
      simp only [hc]
      refine ⟨Nat.succ_le_succ iha, ?_, ?_⟩
      · simp only [List.length_cons, List.range_succ_eq_map, List.map_cons,
          List.map_map, Nat.add_zero, List.cons.injEq, true_and]
        rw [ihw]
        simp only [List.length_map, List.length_range]
        refine List.map_congr_left ?_
        intro i _
        have hx : a + 1 + i = a + Nat.succ i := by omega
        simp [Function.comp, hx]
      · have hretr : isRetryableOutcome (AttemptOutcome.retryable e) = true := rfl
        simp only [List.length_cons, List.range_succ_eq_map, List.countP_cons,
          List.countP_map, Nat.add_zero, hc, hretr, if_true]
        rw [ihc]
        have hfun : ((fun i => isRetryableOutcome (classifyAttempt path (env (a + i)))) ∘ Nat.succ)
            = fun i => isRetryableOutcome (classifyAttempt path (env (a + 1 + i))) := by
          funext i
          simp only [Function.comp_apply]
          have hx : a + Nat.succ i = a + 1 + i := by omega
          rw [hx]
        rw [hfun]

/-! ## Claims about the retry loop -/

/-- C1 (code evaluated at the failing input): a logical call receiving HTTP 400
(body `Bad Request`) on every attempt is NOT failed immediately.  The thrown
`TripItError(400, body)` is caught by the loop's `catch`, recorded as
`lastError`, and retried with backoff: the call consumes all three attempts and
performs three backoff waits before failing with `TripItError(400, body)`. -/
theorem request_400_retried_not_immediate :
    request (fun _ => .response 400 "Bad Request") "/p" =
      { result := .error ⟨400, "Bad Request"⟩, waits := [1000, 2000, 4000], attempts := 3 } :=
  rfl

/-- C3: a logical call receiving HTTP 401 (respectively 404) on its first
attempt fails immediately with `AuthenticationError` (respectively
`NotFoundError`), with zero backoff waits and zero further attempts. -/
theorem request_401_404_fail_immediately (env env' : Nat → FetchOutcome)
    (path path' body body' : String)
    (h : env 0 = .response 401 body) (h' : env' 0 = .response 404 body') :
    request env path =
      { result := .error authenticationError, waits := [], attempts := 1 } ∧
    request env' path' =
      { result := .error (notFoundError "resource" path'), waits := [], attempts := 1 } := by
  constructor <;>
    simp [request, requestGo, MAX_RETRIES, h, h', classifyAttempt]

/-- Witness for C3 at a concrete environment. -/
theorem request_401_404_fail_immediately_witness :
    request (fun _ => .response 401 "denied") "/a" =
      { result := .error authenticationError, waits := [], attempts := 1 } ∧
    request (fun _ => .response 404 "gone") "/b" =
      { result := .error (notFoundError "resource" "/b"), waits := [], attempts := 1 } :=
  request_401_404_fail_immediately (fun _ => .response 401 "denied")
    (fun _ => .response 404 "gone") "/a" "/b" "denied" "gone" rfl rfl

/-- C7: when all `MAX_RETRIES` attempts end in retryable failures, the call
fails with the last recorded retryable error (a retryable error is recorded on
every such attempt, so the generic exhaustion error is not used). -/
theorem request_exhaustion_fails_with_last_error (env : Nat → FetchOutcome)
    (path : String) (e0 e1 e2 : TripItError)
    (h0 : classifyAttempt path (env 0) = .retryable e0)
    (h1 : classifyAttempt path (env 1) = .retryable e1)
    (h2 : classifyAttempt path (env 2) = .retryable e2) :
    (request env path).result = .error e2 ∧
    (request env path).attempts = MAX_RETRIES := by
  simp [request, requestGo, MAX_RETRIES, h0, h1, h2]

/-- Witness for C7 at a concrete environment (HTTP 500 on every attempt). -/
theorem request_exhaustion_fails_with_last_error_witness :
    (request (fun _ => .response 500 "oops") "/p").result =
      .error ⟨500, "Server error: 500"⟩ ∧
    (request (fun _ => .response 500 "oops") "/p").attempts = MAX_RETRIES :=
  request_exhaustion_fails_with_last_error (fun _ => .response 500 "oops") "/p"
    ⟨500, "Server error: 500"⟩ ⟨500, "Server error: 500"⟩ ⟨500, "Server error: 500"⟩
    rfl rfl rfl

/-- C2 counterexample: the claim says no backoff wait occurs after the final
attempt fails terminally, so a call whose three attempts all fail retryably
(HTTP 429 throughout, the call then failing terminally by exhaustion) could
perform at most `MAX_RETRIES - 1 = 2` between-attempt waits.  The code performs
three waits — the third (4000 ms) after the final attempt, before the
exhaustion failure is thrown. -/
theorem request_waits_after_final_attempt :
    (request (fun _ => .response 429 "") "/p").attempts = 3 ∧
    (request (fun _ => .response 429 "") "/p").waits = [1000, 2000, 4000] ∧
    ¬ (request (fun _ => .response 429 "") "/p").waits.length ≤ MAX_RETRIES - 1 :=
  ⟨rfl, rfl, by decide⟩

/-- C2 (amended): each retryable classification on attempt `i` is followed by a
backoff wait of exactly `BASE_DELAY_MS * 2 ^ i`, including when it occurs on
the final attempt (one wait per retryable classification; terminal and
successful classifications are not followed by a wait); the waits are strictly
increasing; and the call makes at most `MAX_RETRIES` attempts. -/
theorem request_backoff_schedule (env : Nat → FetchOutcome) (path : String) :
    (request env path).attempts ≤ MAX_RETRIES ∧
    (request env path).waits =
      (List.range (request env path).waits.length).map
        (fun i => BASE_DELAY_MS * 2 ^ i) ∧
    (request env path).waits.length =
      (List.range (request env path).attempts).countP
        (fun i => isRetryableOutcome (classifyAttempt path (env i))) ∧
    List.Pairwise (· < ·) (request env path).waits := by
  obtain ⟨ha, hw, hcnt⟩ := requestGo_spec env path MAX_RETRIES 0 none
  refine ⟨ha, by simpa using hw, by simpa using hcnt, ?_⟩
  rw [show request env path = requestGo env path MAX_RETRIES 0 none from rfl, hw]
  rw [List.pairwise_map]
  refine (List.pairwise_lt_range _).imp ?_
  intro i j hij
  have h2 : (2:Nat) ^ (0 + i) < 2 ^ (0 + j) :=
    Nat.pow_lt_pow_right (by norm_num) (by omega)
  exact (Nat.mul_lt_mul_left (by norm_num [BASE_DELAY_MS] : 0 < BASE_DELAY_MS)).mpr h2

/-! ## Tool-result envelope and the tool-error boundary
(`handleTripItError` in `src/lib/errors.ts`; the `try/catch` wrappers of
`handleTripTool` / `handleObjectTool` / `handleProTool` in `src/mcp/tools/`) -/

/-- One `{type: 'text', text}` content block (the only block type produced). -/
structure ContentBlock where
  text : String
deriving Repr, DecidableEq

/-- The uniform tool result `{content, isError?}`.  `isError` is an optional
boolean in the source; absence is represented by `false`. -/
structure ToolCallResult where
  content : List ContentBlock
  isError : Bool
deriving Repr, DecidableEq

/-- A value caught at the tool-handling boundary: either a `TripItError`
(including its subclasses) or any other thrown value (carried here as a
description string; the code only logs it). -/
inductive CaughtValue where
  | tripItErr (e : TripItError)
  | nonTripItErr (desc : String)
deriving Repr, DecidableEq

/-- Embeds `handleTripItError` from `src/lib/errors.ts`: classifies a caught
value into a uniform `{content: [text], isError: true}` result. -/
def handleTripItError : CaughtValue → ToolCallResult
  | .tripItErr e =>
    if e.statusCode == 401 then
      { content := [⟨"TripIt authentication expired. Please re-authorize at /oauth/start"⟩],
        isError := true }
    else if e.statusCode == 404 then
      { content := [⟨e.message⟩], isError := true }
    else if e.statusCode == 403 then
      { content := [⟨e.message⟩], isError := true }
    else
      { content := [⟨"TripIt error: " ++ e.details⟩], isError := true }
  | .nonTripItErr _ =>
    { content := [⟨"An unexpected error occurred. Please try again."⟩], isError := true }

/-- The `try { body } catch (error) { return handleTripItError(error) }`
wrapper shared by `handleTripTool`, `handleObjectTool` and `handleProTool`:
given the body's outcome (a result, or a thrown value), it always returns a
plain result and never rethrows. -/
def toolBoundary (body : Except CaughtValue ToolCallResult) : ToolCallResult :=
  match body with
  | .ok r => r
  | .error e => handleTripItError e

/-- C6: every caught value yields a uniform single-text-block result with
`isError = true` and the boundary never throws; any `TripItError` with status
401 yields the fixed re-authorization instruction; a `NotFoundError` yields
text containing the resource identifier; any non-`TripItError` value yields the
generic unexpected-error message. -/
theorem toolBoundary_uniform_error_results :
    (∀ v : CaughtValue,
      (handleTripItError v).isError = true ∧
      ∃ t, (handleTripItError v).content = [t]) ∧
    (∀ d : String,
      handleTripItError (.tripItErr ⟨401, d⟩) =
        { content := [⟨"TripIt authentication expired. Please re-authorize at /oauth/start"⟩],
          isError := true }) ∧
    (∀ resource id : String,
      (handleTripItError (.tripItErr (notFoundError resource id))).content =
        [⟨("TripIt API error (404): " ++ resource ++ " with ID ") ++ id ++ " not found"⟩]) ∧
    (∀ d : String,
      handleTripItError (.nonTripItErr d) =
        { content := [⟨"An unexpected error occurred. Please try again."⟩], isError := true }) ∧
    (∀ r, toolBoundary (.ok r) = r) ∧
    (∀ e, toolBoundary (.error e) = handleTripItError e) := by
  refine ⟨?_, ?_, ?_, ?_, fun _ => rfl, fun _ => rfl⟩
  · intro v
    cases v with
    | tripItErr e =>
      constructor
      · simp only [handleTripItError]
        repeat' split
        all_goals rfl
      · simp only [handleTripItError]
        repeat' split
        all_goals exact ⟨_, rfl⟩
    | nonTripItErr d => exact ⟨rfl, _, rfl⟩
  · intro d; rfl
  · intro resource id
    have hcontent : (handleTripItError (.tripItErr (notFoundError resource id))).content
        = [⟨TripItError.message (notFoundError resource id)⟩] := rfl
    rw [hcontent]
    have h404 : toString (404 : Int) = "404" := rfl
    simp only [TripItError.message, notFoundError, h404, List.cons.injEq, and_true,
      ContentBlock.mk.injEq]
    apply String.ext
    simp [String.data_append]
  · intro d; rfl

/-! ## MCP dispatcher (`handleMCPRequest`, `src/mcp/server.ts`) -/

/-- The JSON-RPC correlation identifier: a string, a number, or `null`. -/
inductive RpcId where
  | str (s : String)
  | num (n : Int)
  | null
deriving Repr, DecidableEq

/-- The `error` member of a response. -/
structure RpcError where
  code : Int
  message : String
deriving Repr, DecidableEq

/-- `SERVER_INFO` from `src/mcp/server.ts`. -/
structure ServerInfo where
  name : String
  version : String
deriving Repr, DecidableEq

/-- One entry of the `tools/list` result, as produced by `getToolDefinitions`
(the input schema is opaque to the dispatcher and omitted here; the tool
registry is an external collaborator). -/
structure ToolDefinition where
  name : String
  description : String
deriving Repr, DecidableEq

/-- Tool arguments: an opaque JSON object, embedded as a key-value list.  The
dispatcher never inspects it; `{}` is the empty list. -/
abbrev ToolArgs := List (String × String)

/-- The shapes of the `result` member the dispatcher can produce. -/
inductive RpcResult where
  | initResult (protocolVersion : String) (serverInfo : ServerInfo)
  | emptyResult
  | toolsList (tools : List ToolDefinition)
  | toolCall (r : ToolCallResult)
  | resourcesList
  | promptsList
deriving Repr, DecidableEq

/-- The `params` of a `tools/call` request, as read by the dispatcher:
`{name, arguments}`, each possibly absent.  An absent or empty `name` is falsy
in the source's `!toolParams?.name` check. -/
structure ToolCallParams where
  name : Option String
  arguments : Option ToolArgs
deriving Repr, DecidableEq

/-- An inbound request envelope (the `jsonrpc: '2.0'` literal is constant and
omitted). -/
structure MCPRequest where
  id : RpcId
  method : String
  params : Option ToolCallParams
deriving Repr, DecidableEq

/-- An outbound response envelope (the `jsonrpc: '2.0'` literal is constant
and omitted). -/
structure MCPResponse where
  id : RpcId
  result : Option RpcResult
  error : Option RpcError
deriving Repr, DecidableEq

/-- `PROTOCOL_VERSION` from `src/mcp/server.ts`. -/
def PROTOCOL_VERSION : String := "2024-11-05"

/-- `SERVER_INFO` value from `src/mcp/server.ts`. -/
def SERVER_INFO : ServerInfo := ⟨"tripit-mcp", "1.0.0"⟩

/-- A thrown JavaScript `Error`, as observed by the dispatcher's `catch`
(which reads `error.message`). -/
structure JsError where
  message : String
deriving Repr, DecidableEq

/-- The body of `handleMCPRequest` (the `switch` inside the `try`).  The
delegated tool execution `handleToolCall` is the external parameter
`toolExec`; a `.error` models an exception propagating out of it (the `await`
rejecting), which the surrounding `catch` will convert. -/
def handleMCPRequestBody (tools : List ToolDefinition)
    (toolExec : String → ToolArgs → Except JsError ToolCallResult)
    (req : MCPRequest) : Except JsError MCPResponse :=
  match req.method with
  | "initialize" =>
    .ok { id := req.id, result := some (.initResult PROTOCOL_VERSION SERVER_INFO), error := none }
  | "initialized" =>
    .ok { id := req.id, result := some .emptyResult, error := none }
  | "tools/list" =>
    .ok { id := req.id, result := some (.toolsList tools), error := none }
  | "tools/call" =>
    match req.params with
    | none =>
      .ok { id := req.id, result := none,
            error := some { code := -32602, message := "Missing tool name" } }
    | some p =>
      match p.name with
      | none =>
        .ok { id := req.id, result := none,
              error := some { code := -32602, message := "Missing tool name" } }
      | some n =>
        if n = "" then
          .ok { id := req.id, result := none,
                error := some { code := -32602, message := "Missing tool name" } }
        else
          match toolExec n (p.arguments.getD []) with
          | .error e => .error e
          | .ok r => .ok { id := req.id, result := some (.toolCall r), error := none }
  | "ping" =>
    .ok { id := req.id, result := some .emptyResult, error := none }
  | "resources/list" =>
    .ok { id := req.id, result := some .resourcesList, error := none }
  | "prompts/list" =>
    .ok { id := req.id, result := some .promptsList, error := none }
  | m =>
    .ok { id := req.id, result := none,
          error := some { code := -32601, message := "Method not found: " ++ m } }

/-- `handleMCPRequest`: the body wrapped in the `try/catch` that converts any
exception into a `-32603` error response carrying the exception's message.
The function is total: it always returns a response and never rethrows. -/
def handleMCPRequest (tools : List ToolDefinition)
    (toolExec : String → ToolArgs → Except JsError ToolCallResult)
    (req : MCPRequest) : MCPResponse :=
  match handleMCPRequestBody tools toolExec req with
  | .ok resp => resp
  | .error e =>
    { id := req.id, result := none, error := some { code := -32603, message := e.message } }

/-- C4: the dispatcher never propagates an exception — `handleMCPRequest`
totally returns a response, and whenever handling the method raises (here:
the delegated tool execution rejects with `e`, the only fallible step of the
body), the response is an error with code `-32603` and the exception's
message. -/
theorem dispatcher_converts_exceptions (tools : List ToolDefinition)
    (toolExec : String → ToolArgs → Except JsError ToolCallResult)
    (req : MCPRequest) (e : JsError)
    (h : handleMCPRequestBody tools toolExec req = .error e) :
    handleMCPRequest tools toolExec req =
      { id := req.id, result := none,
        error := some { code := -32603, message := e.message } } := by
  simp [handleMCPRequest, h]

/-- Witness for C4: a `tools/call` whose delegated execution throws. -/
theorem dispatcher_converts_exceptions_witness :
    handleMCPRequest [] (fun _ _ => .error ⟨"boom"⟩)
        { id := .num 7, method := "tools/call",
          params := some { name := some "tripit_get_profile", arguments := none } } =
      { id := .num 7, result := none,
        error := some { code := -32603, message := "boom" } } :=
  dispatcher_converts_exceptions [] (fun _ _ => .error ⟨"boom"⟩)
    { id := .num 7, method := "tools/call",
      params := some { name := some "tripit_get_profile", arguments := none } }
    ⟨"boom"⟩ rfl

/-- C5: every response carries the request's correlation identifier unchanged
(`RpcId.null` models a `null` id, so a null request id yields a null response
id). -/
theorem dispatcher_echoes_id (tools : List ToolDefinition)
    (toolExec : String → ToolArgs → Except JsError ToolCallResult)
    (req : MCPRequest) :
    (handleMCPRequest tools toolExec req).id = req.id := by
  have hbody : ∀ resp : MCPResponse,
      handleMCPRequestBody tools toolExec req = .ok resp → resp.id = req.id := by
    intro resp h
    unfold handleMCPRequestBody at h
    repeat' split at h
    all_goals cases h <;> rfl
  cases hb : handleMCPRequestBody tools toolExec req with
  | ok resp => simp [handleMCPRequest, hb, hbody resp hb]
  | error e => simp [handleMCPRequest, hb]

/-- C9 counterexample: `params.name` can be present yet empty, and the
source's falsy check `!toolParams?.name` then returns the `-32602` error
instead of delegating to the ToolRouter.  Here the router would return a
successful result, but the response is the `-32602` error with no result. -/
theorem toolcall_present_empty_name_not_delegated :
    handleMCPRequest [] (fun _ _ => .ok { content := [⟨"ok"⟩], isError := false })
        { id := .num 3, method := "tools/call",
          params := some { name := some "", arguments := some [] } } =
      { id := .num 3, result := none,
        error := some { code := -32602, message := "Missing tool name" } } ∧
    (handleMCPRequest [] (fun _ _ => .ok { content := [⟨"ok"⟩], isError := false })
        { id := .num 3, method := "tools/call",
          params := some { name := some "", arguments := some [] } }).result = none :=
  ⟨rfl, rfl⟩

/-- C9 (amended): a `tools/call` request whose params are absent or lack a
`name` (or carry an empty `name`) yields the `-32602` error response without
invoking any tool handler (the response is the same for every tool executor);
when `params.name` is present and non-empty, the ToolRouter's content/isError
result is wrapped as the method result. -/
theorem toolcall_routing (tools : List ToolDefinition)
    (f g : String → ToolArgs → Except JsError ToolCallResult)
    (i : RpcId) (args : Option ToolArgs) (n : String) (r : ToolCallResult)
    (hn : n ≠ "") (hf : f n (args.getD []) = .ok r) :
    handleMCPRequest tools f { id := i, method := "tools/call", params := none } =
      { id := i, result := none,
        error := some { code := -32602, message := "Missing tool name" } } ∧
    handleMCPRequest tools f
        { id := i, method := "tools/call", params := some { name := none, arguments := args } } =
      { id := i, result := none,
        error := some { code := -32602, message := "Missing tool name" } } ∧
    handleMCPRequest tools f { id := i, method := "tools/call", params := none } =
      handleMCPRequest tools g { id := i, method := "tools/call", params := none } ∧
    handleMCPRequest tools f
        { id := i, method := "tools/call", params := some { name := none, arguments := args } } =
      handleMCPRequest tools g
        { id := i, method := "tools/call", params := some { name := none, arguments := args } } ∧
    handleMCPRequest tools f
        { id := i, method := "tools/call", params := some { name := some n, arguments := args } } =
      { id := i, result := some (.toolCall r), error := none } := by
  refine ⟨rfl, rfl, rfl, rfl, ?_⟩
  simp [handleMCPRequest, handleMCPRequestBody, hn, hf]

/-- Witness for C9 (amended) at a concrete non-empty tool name. -/
theorem toolcall_routing_witness :
    handleMCPRequest [] (fun _ _ => .ok { content := [⟨"trips"⟩], isError := false })
        { id := .num 3, method := "tools/call", params := none } =
      { id := .num 3, result := none,
        error := some { code := -32602, message := "Missing tool name" } } ∧
    handleMCPRequest []
        (fun _ _ => .ok { content := [⟨"trips"⟩], isError := false })
        { id := .num 3, method := "tools/call",
          params := some { name := none, arguments := some [] } } =
      { id := .num 3, result := none,
        error := some { code := -32602, message := "Missing tool name" } } ∧
    handleMCPRequest [] (fun _ _ => .ok { content := [⟨"trips"⟩], isError := false })
        { id := .num 3, method := "tools/call", params := none } =
      handleMCPRequest [] (fun _ _ => .error ⟨"never"⟩)
        { id := .num 3, method := "tools/call", params := none } ∧
    handleMCPRequest []
        (fun _ _ => .ok { content := [⟨"trips"⟩], isError := false })
        { id := .num 3, method := "tools/call",
          params := some { name := none, arguments := some [] } } =
      handleMCPRequest [] (fun _ _ => .error ⟨"never"⟩)
        { id := .num 3, method := "tools/call",
          params := some { name := none, arguments := some [] } } ∧
    handleMCPRequest [] (fun _ _ => .ok { content := [⟨"trips"⟩], isError := false })
        { id := .num 3, method := "tools/call",
          params := some { name := some "tripit_list_trips", arguments := some [] } } =
      { id := .num 3,
        result := some (.toolCall { content := [⟨"trips"⟩], isError := false }),
        error := none } :=
  toolcall_routing [] (fun _ _ => .ok { content := [⟨"trips"⟩], isError := false })
    (fun _ _ => .error ⟨"never"⟩) (.num 3) (some []) "tripit_list_trips"
    { content := [⟨"trips"⟩], isError := false } (by decide) rfl

/-! ## `createObject` payload construction (`TripItClient.createObject` and
`TripItClient.capitalize`, `src/tripit/client.ts`) -/

/-- A JSON field value inside an object payload: a string, or any other JSON
value (opaque to `createObject`, which only ever inserts the string
`trip_id`). -/
inductive FieldValue where
  | str (s : String)
  | node (tag : Nat)
deriving Repr, DecidableEq

/-- A JSON object, embedded as an ordered key-value list (JavaScript objects
preserve insertion order). -/
abbrev JsObject := List (String × FieldValue)

/-- The fixed `typeMap` table of `TripItClient.capitalize`. -/
def typeMap : List (String × String) :=
  [("air", "AirObject"), ("lodging", "LodgingObject"), ("car", "CarObject"),
   ("rail", "RailObject"), ("cruise", "CruiseObject"),
   ("restaurant", "RestaurantObject"), ("activity", "ActivityObject"),
   ("note", "NoteObject"), ("directions", "DirectionsObject"),
   ("transport", "TransportObject"), ("parking", "ParkingObject"),
   ("map", "MapObject")]

/-- `s.charAt(0).toUpperCase() + s.slice(1)`: first character uppercased
(ASCII, which covers every object-type token), rest unchanged; the empty
string stays empty. -/
def upperFirst (s : String) : String :=
  match s.data with
  | [] => ""
  | c :: cs => ⟨Char.toUpper c :: cs⟩

/-- Embeds `TripItClient.capitalize`: `typeMap[s] || upperFirst s`. -/
def capitalize (s : String) : String :=
  (List.lookup s typeMap).getD (upperFirst s)

/-- JavaScript property assignment `obj[k] = v` on the key-value embedding:
replaces the value of an existing key in place, otherwise appends the key. -/
def setKey : JsObject → String → FieldValue → JsObject
  | [], k, v => [(k, v)]
  | (k', v') :: rest, k, v =>
    if k' = k then (k, v) :: rest else (k', v') :: setKey rest k v

/-- An outbound provider request as shaped by a client method: HTTP method,
path, and the optional POST payload (a JSON object whose values are JSON
objects, matching `{ [key]: data }`). -/
structure OutboundRequest where
  method : String
  path : String
  payload : Option (List (String × JsObject))
deriving Repr, DecidableEq

/-- Embeds `TripItClient.createObject`: wraps `data` under `capitalize type`,
inserts `trip_id` into that same data object when `tripId` is truthy (the
source's `if (tripId)` is false for an absent and for an empty `tripId`), and
issues `POST /create`. -/
def createObject (type : String) (data : JsObject) (tripId : Option String) :
    OutboundRequest :=
  let key := capitalize type
  let payloadData :=
    match tripId with
    | some t => if t = "" then data else setKey data "trip_id" (.str t)
    | none => data
  { method := "POST", path := "/create", payload := some [(key, payloadData)] }

/-- C10 counterexample: the claim says `trip_id` is inserted whenever a
`tripId` argument is supplied, but supplying the empty string (falsy in the
source's `if (tripId)` check) leaves the data mapping untouched: the payload
carries no `trip_id` field. -/
theorem createObject_empty_tripId_not_inserted :
    createObject "air" [] (some "") =
      { method := "POST", path := "/create", payload := some [("AirObject", [])] } ∧
    createObject "air" [] (some "") ≠
      { method := "POST", path := "/create",
        payload := some [("AirObject", [("trip_id", .str "")])] } :=
  ⟨rfl, by decide⟩

/-- C10 (amended): for each of the twelve table entries, `createObject` sends
`POST /create` with the data wrapped under the table's mapped key; `trip_id`
is inserted into that same data mapping whenever a non-empty `tripId` is
supplied, and left out when `tripId` is absent (or empty); for a type outside
the table, the key is the type with only its first character uppercased. -/
theorem createObject_payload_shape (type : String) (data : JsObject)
    (t : String) (ht : t ≠ "") (hout : List.lookup type typeMap = none) :
    (capitalize "air" = "AirObject" ∧ capitalize "lodging" = "LodgingObject" ∧
     capitalize "car" = "CarObject" ∧ capitalize "rail" = "RailObject" ∧
     capitalize "cruise" = "CruiseObject" ∧
     capitalize "restaurant" = "RestaurantObject" ∧
     capitalize "activity" = "ActivityObject" ∧ capitalize "note" = "NoteObject" ∧
     capitalize "directions" = "DirectionsObject" ∧
     capitalize "transport" = "TransportObject" ∧
     capitalize "parking" = "ParkingObject" ∧ capitalize "map" = "MapObject") ∧
    createObject type data (some t) =
      { method := "POST", path := "/create",
        payload := some [(capitalize type, setKey data "trip_id" (.str t))] } ∧
    createObject type data none =
      { method := "POST", path := "/create",
        payload := some [(capitalize type, data)] } ∧
    capitalize type = upperFirst type := by
  refine ⟨by decide, ?_, rfl, ?_⟩
  · simp [createObject, ht]
  · simp [capitalize, hout]

/-- Witness for C10 (amended) at a concrete out-of-table type and a non-empty
trip id. -/
theorem createObject_payload_shape_witness :
    (capitalize "air" = "AirObject" ∧ capitalize "lodging" = "LodgingObject" ∧
     capitalize "car" = "CarObject" ∧ capitalize "rail" = "RailObject" ∧
     capitalize "cruise" = "CruiseObject" ∧
     capitalize "restaurant" = "RestaurantObject" ∧
     capitalize "activity" = "ActivityObject" ∧ capitalize "note" = "NoteObject" ∧
     capitalize "directions" = "DirectionsObject" ∧
     capitalize "transport" = "TransportObject" ∧
     capitalize "parking" = "ParkingObject" ∧ capitalize "map" = "MapObject") ∧
    createObject "visa" [("doc", .node 0)] (some "123") =
      { method := "POST", path := "/create",
        payload := some [(capitalize "visa",
          setKey [("doc", .node 0)] "trip_id" (.str "123"))] } ∧
    createObject "visa" [("doc", .node 0)] none =
      { method := "POST", path := "/create",
        payload := some [(capitalize "visa", [("doc", .node 0)])] } ∧
    capitalize "visa" = upperFirst "visa" :=
  createObject_payload_shape "visa" [("doc", .node 0)] "123" (by decide) rfl

/-! ## Signer (spec-modelled)

`TripItOAuth.signRequest` in `src/tripit/oauth.ts` delegates the whole signing
computation to the third-party `oauth-1.0a` dependency, whose source is not
part of the repository; the definitions below are therefore modelled from the
design document's description of the signature scheme (§4.1). -/

/-- Modelled from the spec: the unreserved characters of percent-encoding
(letters, digits, `-`, `.`, `_`, `~`), which are emitted unchanged; the
encoding internals are in the `oauth-1.0a` dependency, outside the
repository. -/
def isUnreserved (c : Char) : Bool :=
  ('A' ≤ c && c ≤ 'Z') || ('a' ≤ c && c ≤ 'z') || ('0' ≤ c && c ≤ '9') ||
    c == '-' || c == '.' || c == '_' || c == '~'

/-- Modelled from the spec: the uppercase hexadecimal digit of a value below
16 (`0`–`9`, `A`–`F`). -/
def hexDigit (n : Nat) : Char :=
  if n < 10 then Char.ofNat (48 + n) else Char.ofNat (55 + n)

/-- Modelled from the spec: percent-encoding of one character — unreserved
characters stand for themselves, every other byte becomes `%` followed by two
uppercase hex digits.  The model covers single-byte (`toNat < 256`)
characters, which include all of ASCII. -/
def percentEncodeChar (c : Char) : List Char :=
  if isUnreserved c then [c]
  else ['%', hexDigit (c.toNat / 16), hexDigit (c.toNat % 16)]

/-- Modelled from the spec: percent-encoding of a character list. -/
def percentEncodeList (cs : List Char) : List Char :=
  (cs.map percentEncodeChar).flatten

/-- Modelled from the spec: percent-encoding of a string. -/
def percentEncode (s : String) : String :=
  ⟨percentEncodeList s.data⟩

/-- Inverse of `hexDigit` on hex-digit characters (verification device, not
part of the modelled system). -/
def decodeHex (c : Char) : Option Nat :=
  if '0' ≤ c && c ≤ '9' then some (c.toNat - 48)
  else if 'A' ≤ c && c ≤ 'F' then some (c.toNat - 55)
  else none

/-- Percent-decoding of a character list (verification device used to prove
the encoder injective). -/
def percentDecodeList : List Char → Option (List Char)
  | [] => some []
  | c :: rest =>
    if c = '%' then
      match rest with
      | h1 :: h2 :: rest2 =>
        match decodeHex h1, decodeHex h2, percentDecodeList rest2 with
        | some a, some b, some tail => some (Char.ofNat (16 * a + b) :: tail)
        | _, _, _ => none
      | _ => none
    else
      match percentDecodeList rest with
      | some tail => some (c :: tail)
      | none => none

/-- A string all of whose characters fit in one byte (all of ASCII does);
OAuth methods, URLs and secrets in this system are such strings. -/
abbrev ByteString (s : String) : Prop :=
  ∀ c ∈ s.data, c.toNat < 256

/-- Modelled from the spec: insertion step of sorting the parameter set by
key. -/
def sortInsert (p : String × String) :
    List (String × String) → List (String × String)
  | [] => [p]
  | q :: rest => if p.1 ≤ q.1 then p :: q :: rest else q :: sortInsert p rest

/-- Modelled from the spec: the parameter set sorted by key. -/
def sortParams : List (String × String) → List (String × String)
  | [] => []
  | p :: rest => sortInsert p (sortParams rest)

/-- Modelled from the spec: the sorted, percent-encoded parameter string
(`key=value` pairs joined by `&`). -/
def paramString (ps : List (String × String)) : String :=
  String.intercalate "&"
    ((sortParams ps).map (fun p => percentEncode p.1 ++ "=" ++ percentEncode p.2))

/-- Modelled from the spec: the protocol parameter set of one signed request
(nonce and timestamp are injectable arguments; `oauth-1.0a` adds exactly these
six protocol parameters for a parameterless request). -/
def oauthParams (consumerKey token nonce timestamp : String) :
    List (String × String) :=
  [("oauth_consumer_key", consumerKey), ("oauth_nonce", nonce),
   ("oauth_signature_method", "HMAC-SHA1"), ("oauth_timestamp", timestamp),
   ("oauth_token", token), ("oauth_version", "1.0")]

/-- Modelled from the spec: the signature base string — percent-encoded
method, base URL and parameter string, joined by `&`. -/
def signatureBaseString (method url : String) (ps : List (String × String)) :
    String :=
  percentEncode method ++ "&" ++ percentEncode url ++ "&" ++
    percentEncode (paramString ps)

/-- Modelled from the spec: the signing key —
`percentEncode(consumerSecret) & percentEncode(tokenSecret)`. -/
def signingKey (consumerSecret tokenSecret : String) : String :=
  percentEncode consumerSecret ++ "&" ++ percentEncode tokenSecret

/-- The authorization header map produced by `sign`: the six protocol
parameters plus the signature. -/
structure OAuthHeader where
  oauthConsumerKey : String
  oauthNonce : String
  oauthSignatureMethod : String
  oauthTimestamp : String
  oauthToken : String
  oauthVersion : String
  oauthSignature : String
deriving Repr, DecidableEq

/-- Modelled from the spec: `sign(method, url, accessToken, accessSecret)`
with injectable nonce and timestamp, parameterized by the message
authentication code `mac` (HMAC-SHA1 followed by base64 in the real system,
computed inside the `oauth-1.0a` dependency): a pure computation of the
authorization header fields. -/
def signRequest (mac : String → String → String)
    (consumerKey consumerSecret method url token tokenSecret nonce timestamp :
      String) : OAuthHeader :=
  { oauthConsumerKey := consumerKey
    oauthNonce := nonce
    oauthSignatureMethod := "HMAC-SHA1"
    oauthTimestamp := timestamp
    oauthToken := token
    oauthVersion := "1.0"
    oauthSignature :=
      mac (signatureBaseString method url (oauthParams consumerKey token nonce timestamp))
        (signingKey consumerSecret tokenSecret) }

/-- Decoding inverts the hex digit of any value below 16. -/
theorem decodeHex_hexDigit : ∀ n : Fin 16, decodeHex (hexDigit n.val) = some n.val := by
  decide

/-- Percent-decoding inverts percent-encoding on single-byte characters. -/
theorem percentDecode_encode :
    ∀ cs : List Char, (∀ c ∈ cs, c.toNat < 256) →
      percentDecodeList (percentEncodeList cs) = some cs := by
  intro cs
  induction cs with
  | nil => intro _; rfl
  | cons c cs ih =>
    intro h
    have hc : c.toNat < 256 := h c (List.mem_cons_self c cs)
    have htail := ih (fun x hx => h x (List.mem_cons_of_mem c hx))
    cases hu : isUnreserved c with
    | true =>
      have henc : percentEncodeList (c :: cs) = c :: percentEncodeList cs := by
        simp [percentEncodeList, percentEncodeChar, hu]
      have hne : ¬ c = '%' := by
        intro he
        rw [he] at hu
        exact absurd hu (by decide)
      rw [henc]
      unfold percentDecodeList
      rw [if_neg hne, htail]
    | false =>
      have henc : percentEncodeList (c :: cs) =
          '%' :: hexDigit (c.toNat / 16) :: hexDigit (c.toNat % 16) ::
            percentEncodeList cs := by
        simp [percentEncodeList, percentEncodeChar, hu]
      have hdiv : c.toNat / 16 < 16 := by omega
      have hmod : c.toNat % 16 < 16 := by omega
      have h1 : decodeHex (hexDigit (c.toNat / 16)) = some (c.toNat / 16) :=
        decodeHex_hexDigit ⟨c.toNat / 16, hdiv⟩
      have h2 : decodeHex (hexDigit (c.toNat % 16)) = some (c.toNat % 16) :=
        decodeHex_hexDigit ⟨c.toNat % 16, hmod⟩
      rw [henc]
      unfold percentDecodeList
      rw [if_pos rfl]
      simp only [h1, h2, htail]
      rw [Nat.div_add_mod, Char.ofNat_toNat]

/-- Percent-encoding is injective on single-byte strings. -/
theorem percentEncode_injOn {s t : String} (hs : ByteString s) (ht : ByteString t)
    (h : percentEncode s = percentEncode t) : s = t := by
  have hdata : percentEncodeList s.data = percentEncodeList t.data := by
    have := congrArg String.data h
    simpa [percentEncode] using this
  have hdec := percentDecode_encode s.data hs
  rw [hdata, percentDecode_encode t.data ht] at hdec
  exact String.ext (Option.some.inj hdec).symm

/-- A hex digit of a value below 16 is never the separator `&`. -/
theorem hexDigit_ne_amp : ∀ n : Fin 16, hexDigit n.val ≠ '&' := by
  decide

/-- The percent-encoding of a single-byte character list never contains the
separator `&` (`&` is not unreserved, so it is always escaped). -/
theorem amp_not_mem_percentEncodeList :
    ∀ cs : List Char, (∀ c ∈ cs, c.toNat < 256) →
      '&' ∉ percentEncodeList cs := by
  intro cs
  induction cs with
  | nil => intro _ hmem; exact absurd hmem (by decide)
  | cons c cs ih =>
    intro h hmem
    have hc : c.toNat < 256 := h c (List.mem_cons_self c cs)
    have htail := ih (fun x hx => h x (List.mem_cons_of_mem c hx))
    have hsplit : percentEncodeList (c :: cs) =
        percentEncodeChar c ++ percentEncodeList cs := by
      simp [percentEncodeList]
    rw [hsplit] at hmem
    rcases List.mem_append.mp hmem with hm | hm
    · unfold percentEncodeChar at hm
      by_cases hu : isUnreserved c
      · rw [if_pos hu] at hm
        have hc' : '&' = c := List.mem_singleton.mp hm
        rw [← hc'] at hu
        exact absurd hu (by decide)
      · rw [if_neg hu] at hm
        have hdiv : c.toNat / 16 < 16 := by omega
        have hmod : c.toNat % 16 < 16 := by omega
        simp only [List.mem_cons, List.not_mem_nil, or_false] at hm
        rcases hm with hm | hm | hm
        · exact absurd hm (by decide)
        · exact hexDigit_ne_amp ⟨c.toNat / 16, hdiv⟩ hm.symm
        · exact hexDigit_ne_amp ⟨c.toNat % 16, hmod⟩ hm.symm
    · exact htail hm

/-- Splitting a concatenation at a separator absent from both left parts. -/
theorem append_amp_inj :
    ∀ (xs1 : List Char) (ys1 xs2 ys2 : List Char), '&' ∉ xs1 → '&' ∉ xs2 →
      xs1 ++ '&' :: ys1 = xs2 ++ '&' :: ys2 → xs1 = xs2 ∧ ys1 = ys2 := by
  intro xs1
  induction xs1 with
  | nil =>
    intro ys1 xs2 ys2 _ h2 he
    cases xs2 with
    | nil => simpa using he
    | cons b bs =>
      simp only [List.nil_append, List.cons_append, List.cons.injEq] at he
      exact absurd (List.mem_cons_self b bs) (he.1 ▸ h2)
  | cons a as ih =>
    intro ys1 xs2 ys2 h1 h2 he
    cases xs2 with
    | nil =>
      simp only [List.nil_append, List.cons_append, List.cons.injEq] at he
      exact absurd (List.mem_cons_self a as) (he.1 ▸ h1)
    | cons b bs =>
      simp only [List.cons_append, List.cons.injEq] at he
      obtain ⟨hab, htail⟩ := he
      have h1' : '&' ∉ as := fun hx => h1 (List.mem_cons_of_mem a hx)
      have h2' : '&' ∉ bs := fun hx => h2 (List.mem_cons_of_mem b hx)
      obtain ⟨hx, hy⟩ := ih ys1 bs ys2 h1' h2' htail
      exact ⟨by rw [hab, hx], hy⟩

/-- String-level split at an `&` separator absent from both left strings. -/
theorem string_amp_split {A B C D : String}
    (hA : '&' ∉ A.data) (hC : '&' ∉ C.data)
    (h : A ++ "&" ++ B = C ++ "&" ++ D) : A = C ∧ B = D := by
  have hdata : A.data ++ '&' :: B.data = C.data ++ '&' :: D.data := by
    have := congrArg String.data h
    simpa [String.data_append] using this
  obtain ⟨h1, h2⟩ := append_amp_inj A.data B.data C.data D.data hA hC hdata
  exact ⟨String.ext h1, String.ext h2⟩

/-- The data of a percent-encoded string never contains `&` (single-byte
input). -/
theorem amp_not_mem_percentEncode {s : String} (hs : ByteString s) :
    '&' ∉ (percentEncode s).data :=
  amp_not_mem_percentEncodeList s.data hs

/-- String-level split of a three-component `&`-joined concatenation. -/
theorem string_amp_split3 {A B C A2 B2 C2 : String}
    (hA : '&' ∉ A.data) (hA2 : '&' ∉ A2.data)
    (hB : '&' ∉ B.data) (hB2 : '&' ∉ B2.data)
    (h : A ++ "&" ++ B ++ "&" ++ C = A2 ++ "&" ++ B2 ++ "&" ++ C2) :
    A = A2 ∧ B = B2 ∧ C = C2 := by
  have hamp : ("&" : String).data = ['&'] := rfl
  have hdata : A.data ++ '&' :: (B.data ++ '&' :: C.data)
      = A2.data ++ '&' :: (B2.data ++ '&' :: C2.data) := by
    have hd := congrArg String.data h
    simpa [String.data_append, hamp, List.append_assoc] using hd
  obtain ⟨h1, hrest⟩ := append_amp_inj A.data _ A2.data _ hA hA2 hdata
  obtain ⟨h2, h3⟩ := append_amp_inj B.data _ B2.data _ hB hB2 hrest
  exact ⟨String.ext h1, String.ext h2, String.ext h3⟩

/-- C8 (spec-modelled): `sign` is a deterministic pure computation with
injectable nonce and timestamp — the produced header carries the supplied
nonce and timestamp, and, provided the message authentication code
distinguishes the two relevant base-string/key pairs (true of HMAC-SHA1 short
of a collision), two invocations produce the same authorization header exactly
when all the inputs (method, URL, consumer pair, credential pair, nonce,
timestamp) coincide: identical inputs give an identical header, and changing
any one input changes the header. -/
theorem signRequest_deterministic_and_sensitive
    (mac : String → String → String)
    (ck cs m u tok ts n tm ck2 cs2 m2 u2 tok2 ts2 n2 tm2 : String)
    (hmac : mac (signatureBaseString m u (oauthParams ck tok n tm)) (signingKey cs ts)
          = mac (signatureBaseString m2 u2 (oauthParams ck2 tok2 n2 tm2))
              (signingKey cs2 ts2)
        → signatureBaseString m u (oauthParams ck tok n tm)
            = signatureBaseString m2 u2 (oauthParams ck2 tok2 n2 tm2)
          ∧ signingKey cs ts = signingKey cs2 ts2)
    (hm : ByteString m) (hu : ByteString u)
    (hcs : ByteString cs) (hts : ByteString ts)
    (hm2 : ByteString m2) (hu2 : ByteString u2)
    (hcs2 : ByteString cs2) (hts2 : ByteString ts2) :
    (signRequest mac ck cs m u tok ts n tm).oauthNonce = n ∧
    (signRequest mac ck cs m u tok ts n tm).oauthTimestamp = tm ∧
    (signRequest mac ck cs m u tok ts n tm
        = signRequest mac ck2 cs2 m2 u2 tok2 ts2 n2 tm2 ↔
      (m = m2 ∧ u = u2 ∧ ck = ck2 ∧ cs = cs2 ∧
       tok = tok2 ∧ ts = ts2 ∧ n = n2 ∧ tm = tm2)) := by
  refine ⟨rfl, rfl, ?_, ?_⟩
  · intro h
    simp only [signRequest, OAuthHeader.mk.injEq, true_and] at h
    obtain ⟨hck, hn, htm, htok, hsig⟩ := h
    obtain ⟨hbase, hkey⟩ := hmac (by rw [hck, hn, htm, htok] at hsig ⊢; exact hsig)
    obtain ⟨hem, heu, _⟩ := string_amp_split3
      (amp_not_mem_percentEncode hm) (amp_not_mem_percentEncode hm2)
      (amp_not_mem_percentEncode hu) (amp_not_mem_percentEncode hu2) hbase
    obtain ⟨hecs, hets⟩ := string_amp_split
      (amp_not_mem_percentEncode hcs) (amp_not_mem_percentEncode hcs2) hkey
    exact ⟨percentEncode_injOn hm hm2 hem, percentEncode_injOn hu hu2 heu,
      hck, percentEncode_injOn hcs hcs2 hecs, htok,
      percentEncode_injOn hts hts2 hets, hn, htm⟩
  · rintro ⟨rfl, rfl, rfl, rfl, rfl, rfl, rfl, rfl⟩
    rfl

/-- Witness for C8: with an (injective-on-these-inputs) mac, changing only the
method changes the header. -/
theorem signRequest_deterministic_and_sensitive_witness :
    signRequest (fun b _ => b) "ckey" "csecret" "GET"
        "https://api.tripit.com/v1/get/trip" "atok" "asec" "n1" "1700000000"
      ≠ signRequest (fun b _ => b) "ckey" "csecret" "POST"
        "https://api.tripit.com/v1/get/trip" "atok" "asec" "n1" "1700000000" := by
  intro h
  have hres := (signRequest_deterministic_and_sensitive (fun b _ => b)
      "ckey" "csecret" "GET" "https://api.tripit.com/v1/get/trip"
      "atok" "asec" "n1" "1700000000"
      "ckey" "csecret" "POST" "https://api.tripit.com/v1/get/trip"
      "atok" "asec" "n1" "1700000000"
      (fun hh => ⟨hh, rfl⟩) (by decide) (by decide) (by decide) (by decide)
      (by decide) (by decide) (by decide) (by decide)).2.2.mp h
  exact absurd hres.1 (by decide)

end TripItMCP
